import Mathlib

/-!
Shallow embedding of the catalog aggregation and rating normalization engine
of the repository (the modules exporting `normalizeRating`, `normalizeDirectRating`,
`normalizeViewCount`, `calculateWeightedAverage` and `aggregateCatalogs`,
`normalizeName`, `similarity`, `isDuplicate`, `calculateAverageRating`,
`calculateMetadataScore`, `mergeSeries`), together with the merge helper
`getMostRecentDate` from the date-parsing module.

Modelling conventions:
* JavaScript numbers are exact rationals `ℚ`; `NaN` and present non-number
  values are the explicit constructors `RVal.nan` / `RVal.nonnum`.
* `undefined` and `null` are both `Option.none` (the source always tests them
  together: `x !== undefined && x !== null`, `x === null || x === undefined`).
* `Math.log10`, `new Date(s).getTime()` and `String.prototype.localeCompare`
  are not exactly computable; they are taken as parameters in a `JsEnv`.
* JavaScript objects used as maps (`ratingBreakdown`, `providerSlugs`) are
  insertion-ordered association lists; property assignment updates the first
  occurrence of a key in place or appends a fresh key, exactly as JS object
  key ordering behaves.
-/

/-- A present JavaScript value in a numeric position: a finite number, `NaN`,
or a present non-number value (string, boolean, object, ...). -/
inductive RVal where
  | num (q : ℚ)
  | nan
  | nonnum
deriving DecidableEq

/-- Environment of JavaScript primitives that have no exact rational
implementation.  `dateTime s` is `new Date(s).getTime()` with `none` for an
invalid date (`NaN`), `localeCmp` is `String.prototype.localeCompare`. -/
structure JsEnv where
  log10 : ℚ → ℚ
  dateTime : String → Option ℚ
  localeCmp : String → String → ℤ

/-- A `{ raw, normalized, type }` rating entry (the `RatingEntry` shape).
`rtype` models the `type` field (`type` is a Lean keyword). -/
structure RatingEntry where
  raw : Option RVal
  normalized : Option ℚ
  rtype : Option String
deriving DecidableEq

/-- A value stored under a provider key of a `ratingBreakdown` object:
`null`/`undefined`, an old-format plain number (possibly `NaN`), or a
`RatingEntry` object. -/
inductive BVal where
  | jnull
  | jnum (q : ℚ)
  | jnan
  | jobj (e : RatingEntry)
deriving DecidableEq

/-- `Math.round(q * 10) / 10`: round to one decimal.  JavaScript
`Math.round` rounds half-way cases toward positive infinity, i.e.
`Math.round x = ⌊x + 1/2⌋`. -/
def round1 (q : ℚ) : ℚ := (⌊q * 10 + 1/2⌋ : ℚ) / 10

/-- `Math.max(0, Math.min(10, q))`. -/
def jsClamp (q : ℚ) : ℚ := max 0 (min 10 q)

/-- Truthiness of an optional string (`undefined`, `null` and `""` are falsy). -/
def truthyStr (s : Option String) : Bool :=
  match s with
  | none => false
  | some s => !s.isEmpty

/-- `a || b` on optional strings. -/
def jsOrStr (a b : Option String) : Option String :=
  if truthyStr a then a else b

/-- `t || 'direct'` for the `type` field of a rating entry. -/
def typeOrDirect (t : Option String) : String :=
  match t with
  | none => "direct"
  | some s => if s = "" then "direct" else s

/-- First-occurrence lookup in an association list (JS property read). -/
def alookup {α : Type} (m : List (String × α)) (k : String) : Option α :=
  match m with
  | [] => none
  | (k1, v) :: rest => if k1 = k then some v else alookup rest k

/-- JS property write `m[k] = v`: update the first occurrence of `k` in
place (JS objects keep the original insertion position of an updated key),
or append a fresh key at the end. -/
def setKey {α : Type} (m : List (String × α)) (k : String) (v : α) :
    List (String × α) :=
  match m with
  | [] => [(k, v)]
  | (k1, v1) :: rest =>
    if k1 = k then (k, v) :: rest else (k1, v1) :: setKey rest k v

/-- `Object.assign(t, s)`: write every key of `s` into `t` in `s`'s key
order, overwriting colliding keys. -/
def assignList {α : Type} (t s : List (String × α)) : List (String × α) :=
  s.foldl (fun acc kv => setKey acc kv.1 kv.2) t

/-- Keys of an association list, in order. -/
def keysOf {α : Type} (m : List (String × α)) : List String := m.map (·.1)

/-! ## Rating normalizer (`CONFIG` and the normalize/average functions) -/

/-- `CONFIG.VIEW_THRESHOLD`. -/
def VIEW_THRESHOLD : ℚ := 1000

/-- `CONFIG.DEFAULT_RATING`. -/
def DEFAULT_RATING : ℚ := 6

/-- `CONFIG.PROVIDER_WEIGHTS`. -/
def PROVIDER_WEIGHTS : List (String × ℚ) := [("hmm", 5), ("htv", 1), ("hse", 1)]

/-- `CONFIG.VIEWS.multiplier` (1.5). -/
def VIEWS_MULTIPLIER : ℚ := 3 / 2

/-- `CONFIG.VIEWS.maxValue` (7.0). -/
def VIEWS_MAX_VALUE : ℚ := 7

/-- `normalizeDirectRating`: `null` unless the input is a (non-`NaN`)
number, else the value clamped to `[0, 10]`. -/
def normalizeDirectRating (rating : Option RVal) : Option ℚ :=
  match rating with
  | some (.num q) => some (jsClamp q)
  | _ => none

/-- `normalizeViewCount`: `null` for non-numbers, `NaN`, negatives and
view counts below `VIEW_THRESHOLD`; otherwise
`Math.round(Math.min(7.0, Math.log10(views + 1) * 1.5) * 10) / 10`. -/
def normalizeViewCount (env : JsEnv) (views : Option RVal) : Option ℚ :=
  match views with
  | some (.num q) =>
    if q < 0 then none
    else if q < VIEW_THRESHOLD then none
    else some (round1 (min VIEWS_MAX_VALUE (env.log10 (q + 1) * VIEWS_MULTIPLIER)))
  | _ => none

/-- `normalizeRating(value, type)` (the `switch` on `type`; the function's
default parameter makes an omitted `type` the string `"direct"`). -/
def normalizeRating (env : JsEnv) (value : Option RVal) (t : String) : Option ℚ :=
  if t = "direct" then normalizeDirectRating value
  else if t = "views" then normalizeViewCount env value
  else if t = "trending" then
    match value with
    | some (.num q) => some (min (15/2) (jsClamp q))
    | _ => none
  else if t = "percentage" then
    match value with
    | some (.num q) => some (max 0 (min 10 (q / 10)))
    | _ => none
  else if t = "stars" then
    match value with
    | some (.num q) => some (max 0 (min 10 (q / 5 * 10)))
    | _ => none
  else normalizeDirectRating value

/-- `CONFIG.PROVIDER_WEIGHTS[provider] || 1.0`. -/
def weightOf (provider : String) : ℚ :=
  match alookup PROVIDER_WEIGHTS provider with
  | some w => if w = 0 then 1 else w
  | none => 1

/-- Resolution of one breakdown value inside `calculateWeightedAverage`'s
loop: skip falsy/non-object entries, use a cached `normalized` value, else
recompute it from `raw` + `type` (`views` via `normalizeViewCount`,
`trending` via `Math.min(7.5, normalizeDirectRating(raw))` — where a `null`
result of `normalizeDirectRating` is coerced by `Math.min` to `0` — and
anything else via `normalizeDirectRating`); `none` means the entry is
skipped. -/
def resolveWA (env : JsEnv) (v : BVal) : Option ℚ :=
  match v with
  | .jobj e =>
    match e.normalized with
    | some q => some q
    | none =>
      match e.raw with
      | none => none
      | some raw =>
        if typeOrDirect e.rtype = "views" then normalizeViewCount env (some raw)
        else if typeOrDirect e.rtype = "trending" then
          some (min (15/2) ((normalizeDirectRating (some raw)).getD 0))
        else normalizeDirectRating (some raw)
  | _ => none

/-- The `(totalWeight, weightedSum)` accumulator of
`calculateWeightedAverage`'s loop. -/
def waTotals (env : JsEnv) (bd : List (String × BVal)) : ℚ × ℚ :=
  bd.foldl
    (fun acc kv =>
      match resolveWA env kv.2 with
      | none => acc
      | some n => (acc.1 + weightOf kv.1, acc.2 + n * weightOf kv.1))
    (0, 0)

/-- `calculateWeightedAverage(ratingBreakdown)`: the provider-weighted
average of the resolved entries, `DEFAULT_RATING` when the total weight is
zero, rounded to one decimal otherwise.  (The source also computes an unused
`hasHentaiMamaRating` flag, omitted here.) -/
def calculateWeightedAverage (env : JsEnv) (bd : List (String × BVal)) : ℚ :=
  if (waTotals env bd).1 = 0 then DEFAULT_RATING
  else round1 ((waTotals env bd).2 / (waTotals env bd).1)

/-- One step of the old/new-format conversion loop of
`calculateAverageRating`: `null`/`undefined` and entries whose normalization
fails are dropped; an old-format plain number becomes a `direct` entry; an
object entry is normalized from `raw` + `type` (`views` via
`normalizeViewCount`, everything else via `normalizeDirectRating`). -/
def carEntry (env : JsEnv) (provider : String) (v : BVal) :
    Option (String × BVal) :=
  match v with
  | .jnull => none
  | .jnan => none
  | .jnum q => some (provider, .jobj ⟨some (.num q), some (jsClamp q), some "direct"⟩)
  | .jobj e =>
    if typeOrDirect e.rtype = "views" then
      match normalizeViewCount env e.raw with
      | none => none
      | some n => some (provider, .jobj ⟨e.raw, some n, some (typeOrDirect e.rtype)⟩)
    else
      match normalizeDirectRating e.raw with
      | none => none
      | some n => some (provider, .jobj ⟨e.raw, some n, some (typeOrDirect e.rtype)⟩)

/-- The `normalizedBreakdown` object built by `calculateAverageRating`. -/
def carNormalize (env : JsEnv) (bd : List (String × BVal)) :
    List (String × BVal) :=
  bd.filterMap (fun kv => carEntry env kv.1 kv.2)

/-- `calculateAverageRating(ratingBreakdown)` from the catalog aggregator:
convert every entry to the new format with a freshly computed `normalized`
value, then delegate to `calculateWeightedAverage`.  (The guard for a
`null`/non-object argument, which returns `CONFIG.DEFAULT_RATING`, is not
modelled: every caller in the engine passes an object.) -/
def calculateAverageRating (env : JsEnv) (bd : List (String × BVal)) : ℚ :=
  calculateWeightedAverage env (carNormalize env bd)

/-! ## Name normalization, similarity, duplicate detection -/

/-- JS `String.prototype.trim` on a character list: strip leading and
trailing whitespace. -/
def trimChars (l : List Char) : List Char :=
  ((l.dropWhile Char.isWhitespace).reverse.dropWhile Char.isWhitespace).reverse

/-- `String.prototype.toLowerCase` (ASCII; the engine only compares ASCII
provider/studio/title strings). -/
def lcStr (s : String) : String := (s.toList.map Char.toLower).asString

/-- `String.prototype.toUpperCase` (ASCII). -/
def ucStr (s : String) : String := (s.toList.map Char.toUpper).asString

/-- `\w` of the name-normalization regexes: `[A-Za-z0-9_]`. -/
def isWordChar (c : Char) : Bool := c.isAlphanum || c = '_'

/-- `.replace(/[^\w\s-]/g, '')`: keep word characters, whitespace, hyphen. -/
def stripSpecial (l : List Char) : List Char :=
  l.filter (fun c => isWordChar c || c.isWhitespace || c = '-')

/-- Worker for `collapseWs`; the flag records whether the previous kept
character came from a whitespace run. -/
def collapseWsAux : Bool → List Char → List Char
  | _, [] => []
  | prevWs, c :: rest =>
    if c.isWhitespace then
      if prevWs then collapseWsAux true rest
      else ' ' :: collapseWsAux true rest
    else c :: collapseWsAux false rest

/-- `.replace(/\s+/g, ' ')`: collapse every whitespace run to one space. -/
def collapseWs (l : List Char) : List Char := collapseWsAux false l

/-- `.replace(/^(the|a|an)\s+/i, '')` on an already-lowercased string: strip
a leading article together with the whitespace run after it.  The regex
alternation `the|a|an` requires at least one whitespace character after the
article, so `a` only matches when the next character is whitespace and `an`
only when the character after `n` is. -/
def dropArticle (l : List Char) : List Char :=
  match l with
  | 't' :: 'h' :: 'e' :: c :: rest =>
    if c.isWhitespace then (c :: rest).dropWhile Char.isWhitespace else l
  | 'a' :: 'n' :: c :: rest =>
    if c.isWhitespace then (c :: rest).dropWhile Char.isWhitespace else l
  | 'a' :: c :: rest =>
    if c.isWhitespace then (c :: rest).dropWhile Char.isWhitespace else l
  | _ => l

/-- The alternatives of the trailing-marker regex, in alternation order. -/
def markerWords : List (List Char) :=
  ["episode".toList, "ep".toList, "series".toList, "season".toList, "s".toList]

/-- Does `l` consist of a marker word followed by `\s*\d*` up to the end of
the string?  (The part of `/\s+(episode|ep|series|season|s)\s*\d*$/` after
its leading `\s+`.) -/
def matchMarkerTail (l : List Char) : Bool :=
  markerWords.any (fun w =>
    w.isPrefixOf l &&
      (((l.drop w.length).dropWhile Char.isWhitespace).dropWhile Char.isDigit).isEmpty)

/-- `.replace(/\s+(episode|ep|series|season|s)\s*\d*$/i, '')` on an
already-lowercased string: delete from the leftmost whitespace run that is
followed by a marker word, optional whitespace and optional digits reaching
the end of the string.  (The marker words start with letters, so the greedy
`\s+` never has to give characters back.) -/
def stripMarker : List Char → List Char
  | [] => []
  | c :: rest =>
    if c.isWhitespace && matchMarkerTail ((c :: rest).dropWhile Char.isWhitespace) then []
    else c :: stripMarker rest

/-- `normalizeName`: `''` for a missing/empty name, otherwise lowercase,
trim, strip special characters, collapse whitespace, strip a leading
article and a trailing episode/season marker. -/
def normalizeName (name : Option String) : String :=
  match name with
  | none => ""
  | some s =>
    if s.isEmpty then ""
    else (stripMarker (dropArticle (collapseWs (stripSpecial (trimChars (s.toList.map Char.toLower)))))).asString

/-- One row-cell recursion of the Levenshtein dynamic program: given the
column character `bc`, the remaining characters of `a`, the value to the
left in the new row, the diagonal value and the tail of the previous row,
produce the rest of the new row (`matrix[j][i] = min(left+1, up+1,
diag+indicator)`). -/
def levAux (bc : Char) : List Char → ℕ → ℕ → List ℕ → List ℕ
  | [], _, _, _ => []
  | a :: as, left, diag, prev =>
    min (left + 1) (min (prev.headD 0 + 1) (diag + if a = bc then 0 else 1)) ::
      levAux bc as
        (min (left + 1) (min (prev.headD 0 + 1) (diag + if a = bc then 0 else 1)))
        (prev.headD 0) prev.tail

/-- `levenshteinDistance(a, b)`: row `0` is `[0, 1, ..., |a|]`; each further
row `j` starts with `j` and is filled by `levAux`; the distance is the last
cell of the last row. -/
def levenshteinDistance (a b : List Char) : ℕ :=
  (b.foldl
      (fun st bc => (st.2 :: levAux bc a st.2 (st.1.headD 0) st.1.tail, st.2 + 1))
      (List.range (a.length + 1), 1)).1.getLast?.getD 0

/-- `similarity(a, b)`: `(maxLen - editDistance) / maxLen` with the longer
string first, `1.0` when both strings are empty. -/
def similarity (a b : List Char) : ℚ :=
  if (if a.length > b.length then a else b).length = 0 then 1
  else
    ((if a.length > b.length then a else b).length -
        (levenshteinDistance (if a.length > b.length then a else b)
          (if a.length > b.length then b else a)) : ℚ) /
      ((if a.length > b.length then a else b).length : ℚ)

/-! ## Series records -/

/-- A catalog series record.  Every field the engine reads or writes is
optional except `id`; `none` stands for an absent (or `null`) property. -/
structure Series where
  id : String
  name : Option String := none
  poster : Option String := none
  description : Option String := none
  studio : Option String := none
  genres : Option (List String) := none
  year : Option ℚ := none
  rating : Option RVal := none
  ratingType : Option String := none
  viewCount : Option RVal := none
  providers : Option (List String) := none
  providerSlugs : Option (List (String × String)) := none
  ratingBreakdown : Option (List (String × BVal)) := none
  metadataScore : Option ℤ := none
  lastUpdated : Option String := none
deriving DecidableEq

/-- `isDuplicate(series1, series2)`: exact equality of the normalized
names, otherwise a fuzzy match at the fixed 0.90 similarity threshold. -/
def isDuplicate (series1 series2 : Series) : Bool :=
  if normalizeName series1.name = normalizeName series2.name then true
  else
    decide (similarity (normalizeName series1.name).toList
      (normalizeName series2.name).toList ≥ 9/10)

/-- Description points of `calculateMetadataScore`: +3 for length > 20,
+1 more at > 100, +1 more at > 200. -/
def descScore (s : Series) : ℤ :=
  match s.description with
  | some d =>
    if d.length > 20 then
      3 + (if d.length > 100 then 1 else 0) + (if d.length > 200 then 1 else 0)
    else 0
  | none => 0

/-- Genre points: `min(genres.length, 5)`. -/
def genreScore (s : Series) : ℤ :=
  match s.genres with
  | some l => min l.length 5
  | none => 0

/-- Poster points: +2 when present with length > 10. -/
def posterScore (s : Series) : ℤ :=
  match s.poster with
  | some p => if p.length > 10 then 2 else 0
  | none => 0

/-- Year points: +1 when `series.year` is truthy (present and nonzero). -/
def yearScore (s : Series) : ℤ :=
  match s.year with
  | some y => if y = 0 then 0 else 1
  | none => 0

/-- Rating points: +1 when `series.rating` is truthy and `> 0` (a number
greater than zero; `NaN` and non-numbers give no point). -/
def ratingScore (s : Series) : ℤ :=
  match s.rating with
  | some (.num q) => if 0 < q then 1 else 0
  | _ => 0

/-- `calculateMetadataScore(series)`. -/
def calculateMetadataScore (s : Series) : ℤ :=
  descScore s + genreScore s + posterScore s + yearScore s + ratingScore s

/-! ## Merge -/

/-- `getPrefixFromId(id)`: the capture of the anchored regex
`^([a-z]+)` followed by a literal hyphen, else `"unknown"`: the maximal
leading run of lowercase letters, when it is nonempty and followed by a
hyphen. -/
def getPfxFromId (id : String) : String :=
  if (id.toList.takeWhile (fun c => 'a' ≤ c && c ≤ 'z')).isEmpty then "unknown"
  else if (id.toList.dropWhile (fun c => 'a' ≤ c && c ≤ 'z')).headD ' ' = '-' then
    (id.toList.takeWhile (fun c => 'a' ≤ c && c ≤ 'z')).asString
  else "unknown"

/-- `String.prototype.replace` with a plain-string pattern: remove the
first occurrence of `pat` (used as `id.replace(prefix + "-", "")`). -/
def removeFirst (l pat : List Char) : List Char :=
  match l with
  | [] => []
  | c :: rest =>
    if pat.isPrefixOf (c :: rest) then (c :: rest).drop pat.length
    else c :: removeFirst rest pat

/-- `id.replace(prefix + "-", "")`: the provider slug derived from an id. -/
def idSlug (id pfx : String) : String :=
  (removeFirst id.toList (pfx ++ "-").toList).asString

/-- `getMostRecentDate(dateA, dateB)` from the date-parsing module: prefer
the defined one; with both defined, compare `new Date(x).getTime()`
(invalid dates lose) and return the later, ties going to `dateB`. -/
def getMostRecentDate (env : JsEnv) (dateA dateB : Option String) : Option String :=
  if !truthyStr dateA && !truthyStr dateB then none
  else if !truthyStr dateA then dateB
  else if !truthyStr dateB then dateA
  else
    match env.dateTime (dateA.getD ""), env.dateTime (dateB.getD "") with
    | none, _ => dateB
    | some _, none => dateA
    | some ta, some tb => if ta > tb then dateA else dateB

/-- Does `mergeSeries` promote the incoming record to primary
(`newScore > existingScore`; ties keep the existing record)? -/
def mergeSwapped (existing newSeries : Series) : Bool :=
  calculateMetadataScore existing < calculateMetadataScore newSeries

/-- Truthiness of a breakdown slot, for the guard
`!primary.ratingBreakdown[primaryPrefix]`. -/
def bdTruthy (v : Option BVal) : Bool :=
  match v with
  | some (.jnum q) => if q = 0 then false else true
  | some (.jobj _) => true
  | _ => false

/-- Initialize the primary's `providers`, `providerSlugs` and
`ratingBreakdown` when absent (falsy). -/
def initPrimary (p : Series) : Series :=
  { p with
    providers := some (p.providers.getD [getPfxFromId p.id]),
    providerSlugs := some (p.providerSlugs.getD
      [(getPfxFromId p.id, idSlug p.id (getPfxFromId p.id))]),
    ratingBreakdown := some (p.ratingBreakdown.getD []) }

/-- `existing.providers.forEach(p => { if (!primary.providers.includes(p))
primary.providers.push(p) })`. -/
def pushMissing (t s : List String) : List String :=
  s.foldl (fun acc p => if p ∈ acc then acc else acc ++ [p]) t

/-- Copy the existing record's provider data onto the primary
(`Object.assign` overwrites colliding keys).  `exCur` is the state of the
`existing` reference at this point: the original existing record when the
primary was swapped, otherwise the primary itself (so that these lines are
self no-ops, as in the source where `existing` then aliases `primary`). -/
def copyExistingData (p exCur : Series) : Series :=
  { p with
    providers := some (pushMissing (p.providers.getD []) (exCur.providers.getD [])),
    providerSlugs := some (assignList (p.providerSlugs.getD [])
      (exCur.providerSlugs.getD [])),
    ratingBreakdown := some (assignList (p.ratingBreakdown.getD [])
      (exCur.ratingBreakdown.getD [])) }

/-- Synthesize the primary's own breakdown entry from its standalone
`rating`, guarded by `!primary.ratingBreakdown[primaryPrefix]`. -/
def synthPrimaryRating (p : Series) : Series :=
  if p.rating.isSome &&
      !bdTruthy (alookup (p.ratingBreakdown.getD []) (getPfxFromId p.id)) then
    { p with ratingBreakdown := some (setKey (p.ratingBreakdown.getD [])
        (getPfxFromId p.id) (.jobj ⟨p.rating, none, some (typeOrDirect p.ratingType)⟩)) }
  else p

/-- Synthesize the primary's own breakdown entry from its standalone
`viewCount`, same guard (so a just-synthesized rating entry blocks it). -/
def synthPrimaryViews (p : Series) : Series :=
  if p.viewCount.isSome &&
      !bdTruthy (alookup (p.ratingBreakdown.getD []) (getPfxFromId p.id)) then
    { p with ratingBreakdown := some (setKey (p.ratingBreakdown.getD [])
        (getPfxFromId p.id) (.jobj ⟨p.viewCount, none, some "views"⟩)) }
  else p

/-- Both own-entry synthesis steps for the primary, in source order. -/
def synthPrimaryOwn (p : Series) : Series := synthPrimaryViews (synthPrimaryRating p)

/-- Synthesize the secondary's own breakdown entry from its standalone
`rating` (unconditional overwrite; also creates the breakdown object). -/
def synthSecondaryRating (s : Series) : Series :=
  if s.rating.isSome then
    { s with ratingBreakdown := some (setKey (s.ratingBreakdown.getD [])
        (getPfxFromId s.id) (.jobj ⟨s.rating, none, some (typeOrDirect s.ratingType)⟩)) }
  else s

/-- Synthesize the secondary's own breakdown entry from its standalone
`viewCount` (unconditional overwrite, after the rating synthesis). -/
def synthSecondaryViews (s : Series) : Series :=
  if s.viewCount.isSome then
    { s with ratingBreakdown := some (setKey (s.ratingBreakdown.getD [])
        (getPfxFromId s.id) (.jobj ⟨s.viewCount, none, some "views"⟩)) }
  else s

/-- The in-place mutation of the secondary record performed by
`mergeSeries` (its only mutation of the secondary). -/
def synthSecondary (s : Series) : Series := synthSecondaryViews (synthSecondaryRating s)

/-- `Object.assign(primary.ratingBreakdown, secondary.ratingBreakdown)`. -/
def mergeBreakdowns (p sec : Series) : Series :=
  { p with ratingBreakdown := some (assignList (p.ratingBreakdown.getD [])
      (sec.ratingBreakdown.getD [])) }

/-- Add the secondary's prefix to `providers` (if missing) and its
id-derived slug to `providerSlugs` (unconditional overwrite). -/
def mergeProviderIds (p sec : Series) : Series :=
  { p with
    providers := some (if getPfxFromId sec.id ∈ p.providers.getD [] then
        p.providers.getD []
      else p.providers.getD [] ++ [getPfxFromId sec.id]),
    providerSlugs := some (setKey (p.providerSlugs.getD []) (getPfxFromId sec.id)
      (idSlug sec.id (getPfxFromId sec.id))) }

/-- Recalculate the average rating from the merged breakdown. -/
def mergeRating (env : JsEnv) (p : Series) : Series :=
  { p with rating := some (.num (calculateAverageRating env (p.ratingBreakdown.getD []))) }

/-- Keep the best poster (primary's, else secondary's). -/
def mergePoster (p sec : Series) : Series :=
  if !truthyStr p.poster && truthyStr sec.poster then { p with poster := sec.poster }
  else p

/-- Keep the longest description (assigning the secondary's even when it is
absent, if the primary's is falsy). -/
def mergeDescription (p sec : Series) : Series :=
  if !truthyStr p.description ||
      (truthyStr sec.description &&
        decide ((p.description.getD "").length < (sec.description.getD "").length)) then
    { p with description := sec.description }
  else p

/-- Genre filter: drop genres case-insensitively equal to the studio name
(no filtering when the studio name is falsy). -/
def filterStudio (genres : List String) (studioName : Option String) : List String :=
  if truthyStr studioName then
    genres.filter (fun g => lcStr g != lcStr (studioName.getD ""))
  else genres

/-- JS `[...new Set(l)]`: deduplicate keeping first occurrences. -/
def jsDedup (l : List String) : List String :=
  l.foldl (fun acc g => if g ∈ acc then acc else acc ++ [g]) []

/-- Merge genres: union, filter out the resolved studio name, deduplicate
(only when the secondary has a genres array). -/
def mergeGenres (p sec : Series) : Series :=
  match sec.genres with
  | some secg =>
    { p with genres := some (jsDedup (filterStudio (p.genres.getD [] ++ secg)
        (jsOrStr p.studio sec.studio))) }
  | none => p

/-- `studio === studio.toUpperCase()`. -/
def isAllCaps (s : String) : Bool := s == ucStr s

/-- Merge studio: prefer the primary's; fall back to the secondary's when
the primary's is absent, or when the primary's is all-caps and the
secondary's is not. -/
def mergeStudio (p sec : Series) : Series :=
  if !truthyStr p.studio && truthyStr sec.studio then { p with studio := sec.studio }
  else if truthyStr p.studio && truthyStr sec.studio then
    (if isAllCaps (p.studio.getD "") && !isAllCaps (sec.studio.getD "") then
      { p with studio := sec.studio }
    else p)
  else p

/-- Merge `lastUpdated` (keep the most recent). -/
def mergeLastUpdated (env : JsEnv) (p sec : Series) : Series :=
  { p with lastUpdated := getMostRecentDate env p.lastUpdated sec.lastUpdated }

/-- Store the recomputed metadata score on the merged record. -/
def storeScore (p : Series) : Series :=
  { p with metadataScore := some (calculateMetadataScore p) }

/-- Lines 265-318 of `mergeSeries`, in source order, applied to the
post-synthesis primary `p` and secondary `sec`. -/
def mergeTail (env : JsEnv) (p sec : Series) : Series :=
  storeScore (mergeLastUpdated env (mergeStudio (mergeGenres (mergeDescription
    (mergePoster (mergeRating env (mergeProviderIds (mergeBreakdowns p sec) sec))
      sec) sec) sec) sec) sec)

/-- The record denoted by the variable `primary` right after the swap
decision (a swap shallow-copies the incoming record, which has the same
field values). -/
def mergePrimary0 (existing newSeries : Series) : Series :=
  if mergeSwapped existing newSeries then newSeries else existing

/-- The record denoted by the variable `secondary`. -/
def mergeSecondary0 (existing newSeries : Series) : Series :=
  if mergeSwapped existing newSeries then existing else newSeries

/-- The primary after default initialization, the copy of the existing
record's provider data, and own-entry synthesis (everything before the
`Object.assign` of the secondary's breakdown). -/
def mergePrimaryPre (existing newSeries : Series) : Series :=
  synthPrimaryOwn (copyExistingData (initPrimary (mergePrimary0 existing newSeries))
    (if mergeSwapped existing newSeries then existing
     else initPrimary (mergePrimary0 existing newSeries)))

/-- `mergeSeries(existing, newSeries)`: the returned merged record. -/
def mergeSeries (env : JsEnv) (existing newSeries : Series) : Series :=
  mergeTail env (mergePrimaryPre existing newSeries)
    (synthSecondary (mergeSecondary0 existing newSeries))

/-- The state of the `existing` argument object after `mergeSeries`
returns: without a swap it is the merged record itself (the source mutates
it in place); with a swap it is the secondary, mutated only by the
own-entry synthesis. -/
def mergeExistingAfter (env : JsEnv) (existing newSeries : Series) : Series :=
  if mergeSwapped existing newSeries then synthSecondary existing
  else mergeSeries env existing newSeries

/-- The state of the `newSeries` argument object after `mergeSeries`
returns.  Without a swap it is the secondary, mutated by own-entry
synthesis.  With a swap, the shallow copy `{...newSeries}` aliases the
original's `providers` array and `providerSlugs`/`ratingBreakdown`
objects whenever they were present, and those objects are mutated in
place all the way to the merged result (they are never replaced). -/
def mergeNewAfter (env : JsEnv) (existing newSeries : Series) : Series :=
  if mergeSwapped existing newSeries then
    { newSeries with
      providers := if newSeries.providers.isSome then
          (mergeSeries env existing newSeries).providers else none,
      providerSlugs := if newSeries.providerSlugs.isSome then
          (mergeSeries env existing newSeries).providerSlugs else none,
      ratingBreakdown := if newSeries.ratingBreakdown.isSome then
          (mergeSeries env existing newSeries).ratingBreakdown else none }
  else synthSecondary newSeries

/-- The post-merge state of whichever argument object ended up as the
secondary. -/
def mergeSecondaryAfter (env : JsEnv) (existing newSeries : Series) : Series :=
  if mergeSwapped existing newSeries then mergeExistingAfter env existing newSeries
  else mergeNewAfter env existing newSeries

/-! ## Catalog aggregation -/

/-- The seeded `ratingBreakdown` of a new accumulator entry (`rating`
preferred over `viewCount`). -/
def seedBreakdown (s : Series) : List (String × BVal) :=
  if s.rating.isSome then
    [(getPfxFromId s.id, .jobj ⟨s.rating, none, some (typeOrDirect s.ratingType)⟩)]
  else if s.viewCount.isSome then
    [(getPfxFromId s.id, .jobj ⟨s.viewCount, none, some "views"⟩)]
  else []

/-- Seed-time genre filtering (only when the studio is truthy and `genres`
is an array). -/
def seedGenres (s : Series) : Option (List String) :=
  if truthyStr s.studio then
    match s.genres with
    | some l => some (l.filter (fun g => lcStr g != lcStr (s.studio.getD "")))
    | none => s.genres
  else s.genres

/-- Set the initial rating of a seeded record from its breakdown. -/
def seedRating (env : JsEnv) (p : Series) : Series :=
  { p with rating := some (.num (calculateAverageRating env (p.ratingBreakdown.getD []))) }

/-- The seeded accumulator entry for a record without a duplicate (the
`else` branch of the aggregation loop; the stored `metadataScore` is
computed on the original record, before genre filtering). -/
def seedSeries (env : JsEnv) (s : Series) : Series :=
  seedRating env { s with
    genres := seedGenres s,
    providers := some [getPfxFromId s.id],
    providerSlugs := some [(getPfxFromId s.id, idSlug s.id (getPfxFromId s.id))],
    ratingBreakdown := some (seedBreakdown s),
    metadataScore := some (calculateMetadataScore s) }

/-- The inner-loop body of `aggregateCatalogs`: replace the first
accumulated duplicate (`findIndex`) with the merge, else append the seeded
record at the end. -/
def insertSeries (env : JsEnv) (acc : List Series) (s : Series) : List Series :=
  match acc with
  | [] => [seedSeries env s]
  | t :: rest =>
    if isDuplicate t s then mergeSeries env t s :: rest
    else t :: insertSeries env rest s

/-- The accumulator after consuming every `(provider, catalog)` pair in
order. -/
def aggregateAcc (env : JsEnv) (catalogs : List (String × List Series)) : List Series :=
  catalogs.foldl (fun acc pc => pc.2.foldl (fun acc2 s => insertSeries env acc2 s) acc) []

/-- `a.providers?.length || 1`. -/
def provCount (s : Series) : ℤ :=
  match s.providers with
  | some l => if l.length = 0 then 1 else l.length
  | none => 1

/-- The three-key sort comparator of `aggregateCatalogs`: metadata score
descending, then provider count descending, then `localeCompare` on the
names. -/
def cmpSeries (env : JsEnv) (a b : Series) : ℤ :=
  if b.metadataScore.getD 0 - a.metadataScore.getD 0 ≠ 0 then
    b.metadataScore.getD 0 - a.metadataScore.getD 0
  else if provCount b - provCount a ≠ 0 then provCount b - provCount a
  else env.localeCmp (a.name.getD "") (b.name.getD "")

/-- The Boolean "sorts no later than" relation induced by `cmpSeries`. -/
def seriesLE (env : JsEnv) (a b : Series) : Bool := decide (cmpSeries env a b ≤ 0)

/-- `aggregateCatalogs(providerCatalogs)`: merge every provider catalog
into the accumulator, then sort with the three-key comparator.
`Array.prototype.sort` is specified to be stable, and a stable sort under
a consistent comparator is unique, so it is modelled by
`List.mergeSort`. -/
def aggregateCatalogs (env : JsEnv) (catalogs : List (String × List Series)) :
    List Series :=
  (aggregateAcc env catalogs).mergeSort (fun a b => seriesLE env a b)

/-! ## Concrete records used by witnesses and counterexamples -/

/-- A concrete environment (any total functions will do: the properties
proved with it do not depend on the transcendental primitives). -/
def envZero : JsEnv := ⟨fun _ => 0, fun _ => none, fun _ _ => 0⟩

/-- The §4.3 `views` row, written from the spec's words: `null` if the
value is missing, non-numeric, `NaN`, negative or below the view
threshold 1000; else `min(7.0, log10(value+1) * 1.5)` rounded to one
decimal. -/
def specViewsRule (env : JsEnv) (v : Option RVal) : Option ℚ :=
  match v with
  | some (.num q) =>
    if q < 0 ∨ q < 1000 then none
    else some (round1 (min 7 (env.log10 (q + 1) * (3/2))))
  | _ => none

/-- Record used by the C1 counterexample: the existing (primary) side,
already carrying a breakdown entry for provider `hmm` with raw 8. -/
def c1ex : Series :=
  { id := "aaa-x", name := some "n",
    ratingBreakdown := some [("hmm", .jobj ⟨some (.num 8), none, some "direct"⟩)] }

/-- Record used by the C1 counterexample: the incoming (secondary) side,
carrying a colliding breakdown entry for `hmm` with raw 2. -/
def c1new : Series :=
  { id := "bbb-y", name := some "n",
    ratingBreakdown := some [("hmm", .jobj ⟨some (.num 2), none, some "direct"⟩)] }

/-- Record used by the C3 counterexample (existing side; its rating point
makes the metadata scores tie so no swap happens). -/
def c3ex : Series := { id := "aaa-x", name := some "n", rating := some (.num 9) }

/-- Record used by the C3 counterexample (incoming side, ends up
secondary, carries a standalone rating). -/
def c3new : Series := { id := "bbb-y", name := some "n", rating := some (.num 5) }

/-- Record used by the C4 counterexample: the existing (primary) side
already maps prefix `bbb` to the slug `"old"`. -/
def c4ex : Series :=
  { id := "aaa-x", name := some "n", rating := some (.num 9),
    providerSlugs := some [("bbb", "old")] }

/-- Record used by the C4 counterexample: the incoming secondary, whose
id-derived slug for its own prefix `bbb` is `"y"`. -/
def c4new : Series := { id := "bbb-y", name := some "n" }

/-- Input records of the C8 sort instance. -/
def c8B : Series := { id := "bbb-1", name := some "aaa", year := some 2020 }

/-- Single-occurrence record with the name `zzz` (first provider copy). -/
def c8A1 : Series :=
  { id := "ccc-1", name := some "zzz", viewCount := some (.num 5) }

/-- Second provider copy of the `zzz` record. -/
def c8A2 : Series := { id := "ddd-1", name := some "zzz" }

/-- The three-provider input of the C8 instance. -/
def c8cats : List (String × List Series) :=
  [("q", [c8B]), ("r", [c8A1]), ("s", [c8A2])]

/-- The accumulator entry seeded from `c8B` (metadata score 1 from its
year; default rating 6). -/
def c8Bp : Series :=
  { id := "bbb-1", name := some "aaa", year := some 2020, rating := some (.num 6),
    providers := some ["bbb"], providerSlugs := some [("bbb", "1")],
    ratingBreakdown := some [], metadataScore := some 1 }

/-- The accumulator entry seeded from `c8A1`. -/
def c8A1p : Series :=
  { id := "ccc-1", name := some "zzz", viewCount := some (.num 5),
    rating := some (.num 6), providers := some ["ccc"],
    providerSlugs := some [("ccc", "1")],
    ratingBreakdown := some [("ccc", .jobj ⟨some (.num 5), none, some "views"⟩)],
    metadataScore := some 0 }

/-- The merged two-provider record (metadata score 1 from its rating). -/
def c8Ap : Series :=
  { id := "ccc-1", name := some "zzz", viewCount := some (.num 5),
    rating := some (.num 6), providers := some ["ccc", "ddd"],
    providerSlugs := some [("ccc", "1"), ("ddd", "1")],
    ratingBreakdown := some [("ccc", .jobj ⟨some (.num 5), none, some "views"⟩)],
    metadataScore := some 1 }

/-- The genre predicate of the studio filter: `true` when the genre
survives filtering against the given studio name. -/
def studioPass (st : Option String) (g : String) : Bool :=
  if truthyStr st then lcStr g != lcStr (st.getD "") else true

/-- Record used by the C5 counterexample: carries an all-caps studio and
one genre. -/
def c5a : Series :=
  { id := "xyz-a", name := some "n", studio := some "FOO", genres := some ["bar"] }

/-- Record used by the C5 counterexample: its properly-cased studio
`"Bar"` collides case-insensitively with the other record's genre. -/
def c5b : Series :=
  { id := "foo-b", name := some "n", studio := some "Bar", genres := some [] }

/-- First record of the C5 amended witness (a below-threshold view
count, so every rating stays at the literal default). -/
def c5wa : Series :=
  { id := "aaa-x", name := some "n", viewCount := some (.num 5) }

/-- Second record of the C5 amended witness (contributes nothing). -/
def c5wb : Series := { id := "bbb-y", name := some "n" }

/-! ## Association list lemmas -/

theorem alookup_setKey_self {α : Type} (m : List (String × α)) (k : String) (v : α) :
    alookup (setKey m k v) k = some v := by
  induction m with
  | nil => simp [setKey, alookup]
  | cons kv rest ih =>
    obtain ⟨k1, v1⟩ := kv
    by_cases h : k1 = k
    · simp [setKey, h, alookup]
    · simp [setKey, h, alookup, ih]

theorem alookup_setKey_ne {α : Type} (m : List (String × α)) (k1 k : String) (v : α)
    (h : k1 ≠ k) : alookup (setKey m k1 v) k = alookup m k := by
  induction m with
  | nil => simp [setKey, alookup, h]
  | cons kv rest ih =>
    obtain ⟨k2, v2⟩ := kv
    by_cases h2 : k2 = k1
    · simp [setKey, h2, alookup, h]
    · simp [setKey, h2, alookup, ih]

theorem setKey_of_alookup_eq {α : Type} (m : List (String × α)) (k : String) (v : α)
    (h : alookup m k = some v) : setKey m k v = m := by
  induction m with
  | nil => simp [alookup] at h
  | cons kv rest ih =>
    obtain ⟨k1, v1⟩ := kv
    by_cases h1 : k1 = k
    · subst h1
      simp [alookup] at h
      simp [setKey, h]
    · simp [alookup, h1] at h
      simp [setKey, h1, ih h]

theorem alookup_assignList_of_notmem {α : Type} (t s : List (String × α)) (k : String)
    (h : k ∉ keysOf s) : alookup (assignList t s) k = alookup t k := by
  induction s generalizing t with
  | nil => simp [assignList]
  | cons kv rest ih =>
    obtain ⟨k1, v1⟩ := kv
    simp [keysOf] at h
    show alookup (assignList (setKey t k1 v1) rest) k = alookup t k
    rw [ih (setKey t k1 v1) (by simp [keysOf]; exact h.2),
      alookup_setKey_ne t k1 k v1 (fun e => h.1 e.symm)]

theorem assignList_of_contained {α : Type} (t s : List (String × α))
    (h : ∀ kv ∈ s, alookup t kv.1 = some kv.2) : assignList t s = t := by
  induction s with
  | nil => rfl
  | cons kv rest ih =>
    obtain ⟨k1, v1⟩ := kv
    show assignList (setKey t k1 v1) rest = t
    rw [setKey_of_alookup_eq t k1 v1 (h (k1, v1) (by simp))]
    exact ih (fun kv hkv => h kv (by simp [hkv]))

theorem keysOf_cons {α : Type} (kv : String × α) (rest : List (String × α)) :
    keysOf (kv :: rest) = kv.1 :: keysOf rest := rfl

theorem mem_keysOf {α : Type} (m : List (String × α)) (kv : String × α)
    (h : kv ∈ m) : kv.1 ∈ keysOf m := List.mem_map_of_mem (·.1) h

theorem alookup_assignList_of_mem {α : Type} (t s : List (String × α)) (k : String)
    (hnd : (keysOf s).Nodup) (h : k ∈ keysOf s) :
    alookup (assignList t s) k = alookup s k := by
  induction s generalizing t with
  | nil => simp [keysOf] at h
  | cons kv rest ih =>
    obtain ⟨k1, v1⟩ := kv
    rw [keysOf_cons] at hnd h
    have hnotin : k1 ∉ keysOf rest := (List.nodup_cons.mp hnd).1
    have hnd2 : (keysOf rest).Nodup := (List.nodup_cons.mp hnd).2
    by_cases hk : k1 = k
    · subst hk
      show alookup (assignList (setKey t k1 v1) rest) k1 = _
      rw [alookup_assignList_of_notmem _ _ _ hnotin, alookup_setKey_self]
      simp [alookup]
    · have hmem : k ∈ keysOf rest := by
        rcases List.mem_cons.mp h with h1 | h1
        · exact absurd h1.symm hk
        · exact h1
      show alookup (assignList (setKey t k1 v1) rest) k = _
      rw [ih (setKey t k1 v1) hnd2 hmem]
      simp [alookup, hk]

theorem alookup_self_of_nodup {α : Type} (m : List (String × α))
    (hnd : (keysOf m).Nodup) : ∀ kv ∈ m, alookup m kv.1 = some kv.2 := by
  induction m with
  | nil => simp
  | cons kv rest ih =>
    obtain ⟨k1, v1⟩ := kv
    rw [keysOf_cons] at hnd
    have hnotin : k1 ∉ keysOf rest := (List.nodup_cons.mp hnd).1
    have hnd2 : (keysOf rest).Nodup := (List.nodup_cons.mp hnd).2
    intro kv2 hkv2
    rcases List.mem_cons.mp hkv2 with h | h
    · subst h; simp [alookup]
    · by_cases hk : k1 = kv2.1
      · exact absurd (hk ▸ mem_keysOf rest kv2 h) hnotin
      · simpa [alookup, hk] using ih hnd2 kv2 h

theorem pushMissing_of_contained (t s : List String) (h : ∀ p ∈ s, p ∈ t) :
    pushMissing t s = t := by
  induction s with
  | nil => rfl
  | cons p rest ih =>
    show pushMissing (if p ∈ t then t else t ++ [p]) rest = t
    rw [if_pos (h p (by simp))]
    exact ih (fun q hq => h q (by simp [hq]))

theorem mem_jsDedup_aux (l : List String) (x : String) : ∀ acc : List String,
    (x ∈ l.foldl (fun acc g => if g ∈ acc then acc else acc ++ [g]) acc ↔
      x ∈ acc ∨ x ∈ l) := by
  induction l with
  | nil => intro acc; simp
  | cons g rest ih =>
    intro acc
    show x ∈ rest.foldl _ (if g ∈ acc then acc else acc ++ [g]) ↔ _
    rw [ih]
    by_cases hg : g ∈ acc
    · rw [if_pos hg]
      constructor
      · rintro (h | h)
        · exact Or.inl h
        · exact Or.inr (List.mem_cons_of_mem g h)
      · rintro (h | h)
        · exact Or.inl h
        · rcases List.mem_cons.mp h with h | h
          · exact Or.inl (h ▸ hg)
          · exact Or.inr h
    · rw [if_neg hg]
      constructor
      · rintro (h | h)
        · rcases List.mem_append.mp h with h | h
          · exact Or.inl h
          · exact Or.inr (by simp at h; simp [h])
        · exact Or.inr (List.mem_cons_of_mem g h)
      · rintro (h | h)
        · exact Or.inl (List.mem_append.mpr (Or.inl h))
        · rcases List.mem_cons.mp h with h | h
          · exact Or.inl (List.mem_append.mpr (Or.inr (by simp [h])))
          · exact Or.inr h

theorem mem_jsDedup (l : List String) (x : String) : x ∈ jsDedup l ↔ x ∈ l := by
  rw [jsDedup, mem_jsDedup_aux]; simp

/-! ## Concrete environment and records used by witnesses/counterexamples -/

/-- `weightOf` in closed form. -/
theorem weightOf_eq (p : String) : weightOf p = if "hmm" = p then 5 else 1 := by
  by_cases h1 : "hmm" = p
  · simp [weightOf, alookup, PROVIDER_WEIGHTS, h1]
  · by_cases h2 : "htv" = p
    · simp [weightOf, alookup, PROVIDER_WEIGHTS, h1, h2]
    · by_cases h3 : "hse" = p
      · simp [weightOf, alookup, PROVIDER_WEIGHTS, h1, h2, h3]
      · simp [weightOf, alookup, PROVIDER_WEIGHTS, h1, h2, h3]

/-- Every provider weight is positive. -/
theorem weightOf_pos (p : String) : 0 < weightOf p := by
  rw [weightOf_eq]; split_ifs <;> norm_num

/-- Rounding to one decimal cannot exceed a one-decimal bound the input
respects: `q ≤ 7 → round1 q ≤ 7`. -/
theorem round1_le_seven (q : ℚ) (h : q ≤ 7) : round1 q ≤ 7 := by
  rw [round1]
  have h1 : (⌊q * 10 + 1/2⌋ : ℤ) ≤ 70 := by
    have : q * 10 + 1/2 ≤ 70 + 1/2 := by linarith
    calc (⌊q * 10 + 1/2⌋ : ℤ) ≤ ⌊(70 + 1/2 : ℚ)⌋ := Int.floor_le_floor this
    _ = 70 := by norm_num [Int.floor_eq_iff]
  have h2 : ((⌊q * 10 + 1/2⌋ : ℤ) : ℚ) ≤ 70 := by exact_mod_cast h1
  linarith

/-! ## C6: zero total weight falls back to the 6.0 default -/

/-- Skipped entries leave the accumulator untouched. -/
theorem waTotals_of_all_skipped (env : JsEnv) (bd : List (String × BVal))
    (h : ∀ kv ∈ bd, resolveWA env kv.2 = none) : waTotals env bd = (0, 0) := by
  have haux : ∀ acc : ℚ × ℚ, bd.foldl
      (fun acc kv =>
        match resolveWA env kv.2 with
        | none => acc
        | some n => (acc.1 + weightOf kv.1, acc.2 + n * weightOf kv.1)) acc = acc := by
    induction bd with
    | nil => intro acc; rfl
    | cons kv rest ih =>
      intro acc
      have hk : resolveWA env kv.2 = none := h kv (by simp)
      show rest.foldl _ (match resolveWA env kv.2 with
        | none => acc
        | some n => (acc.1 + weightOf kv.1, acc.2 + n * weightOf kv.1)) = acc
      rw [hk]
      exact ih (fun kv2 hkv2 => h kv2 (by simp [hkv2])) acc
  exact haux (0, 0)

/-- C6: `calculateWeightedAverage` returns the fixed default 6.0 whenever
the breakdown yields zero total weight: `calculateWeightedAverage {} = 6`,
`calculateWeightedAverage {p: null} = 6`, and in general every breakdown
all of whose entries are null (or otherwise resolve to no normalized
value) produces `DEFAULT_RATING = 6`, which is not 0. -/
theorem C6_zero_weight_default :
    (∀ env : JsEnv, calculateWeightedAverage env [] = 6) ∧
    (∀ (env : JsEnv) (p : String), calculateWeightedAverage env [(p, BVal.jnull)] = 6) ∧
    (∀ (env : JsEnv) (bd : List (String × BVal)),
      (∀ kv ∈ bd, resolveWA env kv.2 = none) →
        calculateWeightedAverage env bd = DEFAULT_RATING) ∧
    DEFAULT_RATING = 6 ∧ (6 : ℚ) ≠ 0 := by
  have hgen : ∀ (env : JsEnv) (bd : List (String × BVal)),
      (∀ kv ∈ bd, resolveWA env kv.2 = none) →
        calculateWeightedAverage env bd = DEFAULT_RATING := by
    intro env bd h
    rw [calculateWeightedAverage, waTotals_of_all_skipped env bd h]
    simp
  refine ⟨fun env => ?_, fun env p => ?_, hgen, rfl, by norm_num⟩
  · rw [hgen env [] (by simp)]; rfl
  · rw [hgen env [(p, BVal.jnull)] (by intro kv hkv; simp at hkv; simp [hkv, resolveWA])]
    rfl

/-- Witness for C6: a concrete breakdown (a null entry, an old-format `NaN`
entry and an entry whose views are below the threshold) in which every
entry resolves to `none`, evaluated through the theorem. -/
theorem C6_zero_weight_default_witness :
    (∀ kv ∈ [("p", BVal.jnull), ("q", BVal.jnan),
        ("r", BVal.jobj ⟨some (.num 5), none, some "views"⟩)],
      resolveWA envZero kv.2 = none) ∧
    calculateWeightedAverage envZero [("p", BVal.jnull), ("q", BVal.jnan),
      ("r", BVal.jobj ⟨some (.num 5), none, some "views"⟩)] = DEFAULT_RATING :=
  ⟨by decide, C6_zero_weight_default.2.2.1 envZero _ (by decide)⟩

/-! ## C10: unknown rating types fall back to the direct rule -/

/-- C10: for every numeric value and every type string outside the five
known cases (and for the omitted-argument default, which is the string
`"direct"` itself), `normalizeRating` falls back to the `direct` rule:
the value clamped to `[0, 10]` for numbers, `null` for `undefined`/`null`,
`NaN` and non-numbers; an unknown type never yields an error value and a
numeric value is never treated as unrated. -/
theorem C10_unknown_type_direct (env : JsEnv) (q : ℚ) (t : String)
    (h : t ∉ ["direct", "views", "percentage", "stars", "trending"]) :
    normalizeRating env (some (.num q)) t = some (jsClamp q) ∧
    normalizeRating env none t = none ∧
    normalizeRating env (some .nan) t = none ∧
    normalizeRating env (some .nonnum) t = none ∧
    normalizeRating env (some (.num q)) "direct" = some (jsClamp q) := by
  simp only [List.mem_cons, List.mem_singleton, not_or] at h
  obtain ⟨h1, h2, h3, h4, h5⟩ := h
  refine ⟨?_, ?_, ?_, ?_, ?_⟩ <;>
    simp [normalizeRating, h1, h2, h3, h4, h5, normalizeDirectRating]

/-- Witness for C10 at the unknown type `"banana"` and value 11 (clamped
to 10). -/
theorem C10_unknown_type_direct_witness :
    "banana" ∉ ["direct", "views", "percentage", "stars", "trending"] ∧
    normalizeRating envZero (some (.num 11)) "banana" = some (jsClamp 11) :=
  ⟨by decide, (C10_unknown_type_direct envZero 11 "banana" (by decide)).1⟩

/-! ## C7: normalizeViewCount refines the spec's views row -/

/-- C7: `normalizeViewCount` agrees with the spec's views row on every
input; in particular `normalizeViewCount 999 = null`, and
`normalizeViewCount 1000` is a number `≤ 7.0`. -/
theorem C7_view_count_rule (env : JsEnv) :
    (∀ v : Option RVal, normalizeViewCount env v = specViewsRule env v) ∧
    normalizeViewCount env (some (.num 999)) = none ∧
    (∃ r : ℚ, normalizeViewCount env (some (.num 1000)) = some r ∧ r ≤ 7) := by
  have hagree : ∀ v : Option RVal, normalizeViewCount env v = specViewsRule env v := by
    intro v
    match v with
    | none => rfl
    | some .nan => rfl
    | some .nonnum => rfl
    | some (.num q) =>
      simp only [normalizeViewCount, specViewsRule, VIEW_THRESHOLD, VIEWS_MAX_VALUE,
        VIEWS_MULTIPLIER]
      by_cases h0 : q < 0
      · simp [h0]
      · by_cases h1 : q < 1000
        · simp [h0, h1]
        · simp [h0, h1]
  refine ⟨hagree, ?_, ?_⟩
  · rw [hagree]
    have : (999 : ℚ) < 1000 := by norm_num
    simp [specViewsRule, this]
  · refine ⟨round1 (min 7 (env.log10 (1000 + 1) * (3/2))), ?_, ?_⟩
    · rw [hagree]
      have h0 : ¬((1000 : ℚ) < 0 ∨ (1000 : ℚ) < 1000) := by norm_num
      simp [specViewsRule, h0]
    · exact round1_le_seven _ (min_le_left _ _)

/-! ## C2: merge/seed-time normalization ignores the percentage, stars
and trending rules -/

/-- The single-entry merge/seed average in closed form, for any non-views
type: the entry is normalized with the direct clamp and the weight cancels
in the average. -/
theorem calcAvgRating_single_nonviews (env : JsEnv) (p : String) (q : ℚ)
    (t : Option String) (ht : typeOrDirect t ≠ "views") :
    calculateAverageRating env [(p, .jobj ⟨some (.num q), none, t⟩)] =
      round1 (jsClamp q) := by
  have hw : weightOf p ≠ 0 := ne_of_gt (weightOf_pos p)
  rw [calculateAverageRating, carNormalize]
  have hentry : carEntry env p (.jobj ⟨some (.num q), none, t⟩) =
      some (p, .jobj ⟨some (.num q), some (jsClamp q), some (typeOrDirect t)⟩) := by
    rw [carEntry]
    simp [ht, normalizeDirectRating]
  rw [List.filterMap_cons]
  simp only [hentry, List.filterMap_nil]
  rw [calculateWeightedAverage, waTotals]
  simp only [List.foldl_cons, List.foldl_nil, resolveWA]
  rw [if_neg (by
    simpa using fun hcontra => hw (by rw [hcontra]))]
  congr 1
  field_simp

/-- C2 counterexample: a percentage entry of 85 contributes the direct
clamp `10` to the merge/seed average, not the table's `8.5` that
`normalizeRating` computes, so the weighted-average computation used
during merge and seeding does not resolve such entries per the §4.3
table. -/
theorem C2_counterexample :
    calculateAverageRating envZero
      [("p", .jobj ⟨some (.num 85), none, some "percentage"⟩)] = 10 ∧
    normalizeRating envZero (some (.num 85)) "percentage" = some (17/2) ∧
    (10 : ℚ) ≠ 17/2 := by
  refine ⟨?_, ?_, by norm_num⟩
  · rw [calcAvgRating_single_nonviews envZero "p" 85 (some "percentage") (by decide)]
    norm_num [round1, jsClamp, Int.floor_eq_iff]
  · simp only [normalizeRating, String.reduceEq, if_false, if_true]
    norm_num [jsClamp]

/-- C2 amended: for every breakdown entry with a numeric raw value, a type
of `percentage`, `stars` or `trending` and no cached normalized value, the
weighted-average computation used during merge and seeding
(`calculateAverageRating`) resolves the entry with the `direct` rule —
clamp to `[0, 10]` — instead of the §4.3 table rule for its type. -/
theorem C2_amended_direct_clamp (env : JsEnv) (p : String) (q : ℚ) (t : String)
    (h : t = "percentage" ∨ t = "stars" ∨ t = "trending") :
    calculateAverageRating env [(p, .jobj ⟨some (.num q), none, some t⟩)] =
      round1 (jsClamp q) := by
  refine calcAvgRating_single_nonviews env p q (some t) ?_
  rcases h with h | h | h <;> subst h <;> decide

/-- Witness for C2 amended, at the percentage entry of the
counterexample. -/
theorem C2_amended_direct_clamp_witness :
    ("percentage" = "percentage" ∨ "percentage" = "stars" ∨ "percentage" = "trending") ∧
    calculateAverageRating envZero
      [("p", .jobj ⟨some (.num 85), none, some "percentage"⟩)] =
        round1 (jsClamp 85) :=
  ⟨Or.inl rfl, C2_amended_direct_clamp envZero "p" 85 "percentage" (Or.inl rfl)⟩

/-! ## Field-preservation lemmas for the merge steps -/

theorem storeScore_breakdown (p : Series) :
    (storeScore p).ratingBreakdown = p.ratingBreakdown := rfl

theorem mergeLastUpdated_breakdown (env : JsEnv) (p sec : Series) :
    (mergeLastUpdated env p sec).ratingBreakdown = p.ratingBreakdown := rfl

theorem mergeRating_breakdown (env : JsEnv) (p : Series) :
    (mergeRating env p).ratingBreakdown = p.ratingBreakdown := rfl

theorem mergeProviderIds_breakdown (p sec : Series) :
    (mergeProviderIds p sec).ratingBreakdown = p.ratingBreakdown := rfl

theorem mergeBreakdowns_breakdown (p sec : Series) :
    (mergeBreakdowns p sec).ratingBreakdown =
      some (assignList (p.ratingBreakdown.getD []) (sec.ratingBreakdown.getD [])) := rfl

theorem mergePoster_breakdown (p sec : Series) :
    (mergePoster p sec).ratingBreakdown = p.ratingBreakdown := by
  rw [mergePoster]; split_ifs <;> rfl

theorem mergeDescription_breakdown (p sec : Series) :
    (mergeDescription p sec).ratingBreakdown = p.ratingBreakdown := by
  rw [mergeDescription]; split_ifs <;> rfl

theorem mergeGenres_breakdown (p sec : Series) :
    (mergeGenres p sec).ratingBreakdown = p.ratingBreakdown := by
  rw [mergeGenres]; cases sec.genres <;> rfl

theorem mergeStudio_breakdown (p sec : Series) :
    (mergeStudio p sec).ratingBreakdown = p.ratingBreakdown := by
  rw [mergeStudio]; split_ifs <;> rfl

theorem mergeTail_breakdown (env : JsEnv) (p sec : Series) :
    (mergeTail env p sec).ratingBreakdown =
      some (assignList (p.ratingBreakdown.getD []) (sec.ratingBreakdown.getD [])) := by
  rw [mergeTail, storeScore_breakdown, mergeLastUpdated_breakdown, mergeStudio_breakdown,
    mergeGenres_breakdown, mergeDescription_breakdown, mergePoster_breakdown,
    mergeRating_breakdown, mergeProviderIds_breakdown, mergeBreakdowns_breakdown]

theorem storeScore_slugs (p : Series) :
    (storeScore p).providerSlugs = p.providerSlugs := rfl

theorem mergeLastUpdated_slugs (env : JsEnv) (p sec : Series) :
    (mergeLastUpdated env p sec).providerSlugs = p.providerSlugs := rfl

theorem mergeRating_slugs (env : JsEnv) (p : Series) :
    (mergeRating env p).providerSlugs = p.providerSlugs := rfl

theorem mergeProviderIds_slugs (p sec : Series) :
    (mergeProviderIds p sec).providerSlugs =
      some (setKey (p.providerSlugs.getD []) (getPfxFromId sec.id)
        (idSlug sec.id (getPfxFromId sec.id))) := rfl

theorem mergeBreakdowns_slugs (p sec : Series) :
    (mergeBreakdowns p sec).providerSlugs = p.providerSlugs := rfl

theorem mergePoster_slugs (p sec : Series) :
    (mergePoster p sec).providerSlugs = p.providerSlugs := by
  rw [mergePoster]; split_ifs <;> rfl

theorem mergeDescription_slugs (p sec : Series) :
    (mergeDescription p sec).providerSlugs = p.providerSlugs := by
  rw [mergeDescription]; split_ifs <;> rfl

theorem mergeGenres_slugs (p sec : Series) :
    (mergeGenres p sec).providerSlugs = p.providerSlugs := by
  rw [mergeGenres]; cases sec.genres <;> rfl

theorem mergeStudio_slugs (p sec : Series) :
    (mergeStudio p sec).providerSlugs = p.providerSlugs := by
  rw [mergeStudio]; split_ifs <;> rfl

theorem mergeTail_slugs (env : JsEnv) (p sec : Series) :
    (mergeTail env p sec).providerSlugs =
      some (setKey ((mergeBreakdowns p sec).providerSlugs.getD []) (getPfxFromId sec.id)
        (idSlug sec.id (getPfxFromId sec.id))) := by
  rw [mergeTail, storeScore_slugs, mergeLastUpdated_slugs, mergeStudio_slugs,
    mergeGenres_slugs, mergeDescription_slugs, mergePoster_slugs, mergeRating_slugs,
    mergeProviderIds_slugs]

theorem storeScore_rating (p : Series) : (storeScore p).rating = p.rating := rfl

theorem mergeLastUpdated_rating (env : JsEnv) (p sec : Series) :
    (mergeLastUpdated env p sec).rating = p.rating := rfl

theorem mergePoster_rating (p sec : Series) :
    (mergePoster p sec).rating = p.rating := by
  rw [mergePoster]; split_ifs <;> rfl

theorem mergeDescription_rating (p sec : Series) :
    (mergeDescription p sec).rating = p.rating := by
  rw [mergeDescription]; split_ifs <;> rfl

theorem mergeGenres_rating (p sec : Series) :
    (mergeGenres p sec).rating = p.rating := by
  rw [mergeGenres]; cases sec.genres <;> rfl

theorem mergeStudio_rating (p sec : Series) :
    (mergeStudio p sec).rating = p.rating := by
  rw [mergeStudio]; split_ifs <;> rfl

/-- The merged rating is always the recomputed weighted average of the
merged breakdown. -/
theorem mergeTail_rating (env : JsEnv) (p sec : Series) :
    (mergeTail env p sec).rating =
      some (.num (calculateAverageRating env
        (assignList (p.ratingBreakdown.getD []) (sec.ratingBreakdown.getD [])))) := by
  rw [mergeTail, storeScore_rating, mergeLastUpdated_rating, mergeStudio_rating,
    mergeGenres_rating, mergeDescription_rating, mergePoster_rating]
  rfl

theorem storeScore_genres (p : Series) : (storeScore p).genres = p.genres := rfl

theorem mergeLastUpdated_genres (env : JsEnv) (p sec : Series) :
    (mergeLastUpdated env p sec).genres = p.genres := rfl

theorem mergePoster_genres (p sec : Series) :
    (mergePoster p sec).genres = p.genres := by
  rw [mergePoster]; split_ifs <;> rfl

theorem mergeDescription_genres (p sec : Series) :
    (mergeDescription p sec).genres = p.genres := by
  rw [mergeDescription]; split_ifs <;> rfl

theorem mergeStudio_genres (p sec : Series) :
    (mergeStudio p sec).genres = p.genres := by
  rw [mergeStudio]; split_ifs <;> rfl

theorem mergePoster_studio (p sec : Series) :
    (mergePoster p sec).studio = p.studio := by
  rw [mergePoster]; split_ifs <;> rfl

theorem mergeDescription_studio (p sec : Series) :
    (mergeDescription p sec).studio = p.studio := by
  rw [mergeDescription]; split_ifs <;> rfl

/-- The merged genres: filtered union when the secondary has a genres
array, the primary's genres unchanged otherwise. -/
theorem mergeTail_genres (env : JsEnv) (p sec : Series) :
    (mergeTail env p sec).genres =
      match sec.genres with
      | some secg => some (jsDedup (filterStudio (p.genres.getD [] ++ secg)
          (jsOrStr p.studio sec.studio)))
      | none => p.genres := by
  rw [mergeTail, storeScore_genres, mergeLastUpdated_genres, mergeStudio_genres,
    mergeGenres]
  cases hg : sec.genres with
  | none =>
    rw [mergeDescription_genres, mergePoster_genres]
    rfl
  | some secg =>
    rw [mergeDescription_studio, mergePoster_studio, mergeDescription_genres,
      mergePoster_genres]
    rfl

theorem mergePoster_name (p sec : Series) : (mergePoster p sec).name = p.name := by
  rw [mergePoster]; split_ifs <;> rfl

theorem mergeDescription_name (p sec : Series) :
    (mergeDescription p sec).name = p.name := by
  rw [mergeDescription]; split_ifs <;> rfl

theorem mergeGenres_name (p sec : Series) : (mergeGenres p sec).name = p.name := by
  rw [mergeGenres]; cases sec.genres <;> rfl

theorem mergeStudio_name (p sec : Series) : (mergeStudio p sec).name = p.name := by
  rw [mergeStudio]; split_ifs <;> rfl

theorem synthPrimaryOwn_name (p : Series) : (synthPrimaryOwn p).name = p.name := by
  rw [synthPrimaryOwn, synthPrimaryViews, synthPrimaryRating]
  split_ifs <;> rfl

theorem synthSecondary_name (s : Series) : (synthSecondary s).name = s.name := by
  rw [synthSecondary, synthSecondaryViews, synthSecondaryRating]
  split_ifs <;> rfl

/-- The merge never changes the name: the result carries the name of
whichever record became primary. -/
theorem mergeSeries_name (env : JsEnv) (ex nw : Series) :
    (mergeSeries env ex nw).name = (mergePrimary0 ex nw).name := by
  rw [mergeSeries, mergeTail]
  rw [show (storeScore (mergeLastUpdated env (mergeStudio (mergeGenres (mergeDescription
      (mergePoster (mergeRating env (mergeProviderIds (mergeBreakdowns
        (mergePrimaryPre ex nw) (synthSecondary (mergeSecondary0 ex nw))) _)) _) _) _) _)
      _)).name =
    (mergeStudio (mergeGenres (mergeDescription (mergePoster (mergeRating env
      (mergeProviderIds (mergeBreakdowns (mergePrimaryPre ex nw)
        (synthSecondary (mergeSecondary0 ex nw))) _)) _) _) _)
      (synthSecondary (mergeSecondary0 ex nw))).name from rfl]
  rw [mergeStudio_name, mergeGenres_name, mergeDescription_name, mergePoster_name]
  rw [show (mergeRating env (mergeProviderIds (mergeBreakdowns (mergePrimaryPre ex nw)
      (synthSecondary (mergeSecondary0 ex nw))) (synthSecondary (mergeSecondary0 ex nw)))).name =
    (mergePrimaryPre ex nw).name from rfl]
  rw [mergePrimaryPre, synthPrimaryOwn_name]
  rfl

theorem synthSecondary_id (s : Series) : (synthSecondary s).id = s.id := by
  rw [synthSecondary, synthSecondaryViews, synthSecondaryRating]
  split_ifs <;> rfl

/-- The secondary-side synthesis touches no field other than
`ratingBreakdown`. -/
theorem synthSecondary_only_breakdown (s : Series) :
    synthSecondary s = { s with ratingBreakdown := (synthSecondary s).ratingBreakdown } := by
  rw [synthSecondary, synthSecondaryViews, synthSecondaryRating]
  split_ifs <;> rfl

/-- Whichever record is secondary, its post-merge state is exactly the
own-entry synthesis applied to it. -/
theorem mergeSecondaryAfter_eq (env : JsEnv) (ex nw : Series) :
    mergeSecondaryAfter env ex nw = synthSecondary (mergeSecondary0 ex nw) := by
  rw [mergeSecondaryAfter, mergeExistingAfter, mergeNewAfter, mergeSecondary0]
  by_cases h : mergeSwapped ex nw <;> simp [h]

/-! ## C1: breakdown collisions -/

/-- C1 counterexample: merging two records that both carry a breakdown
entry for the prefix `hmm` (primary raw 8, secondary raw 2, no primary
swap) leaves the SECONDARY's entry in the merged record — the primary's
entry is discarded, contradicting the claimed primary precedence. -/
theorem C1_counterexample :
    mergeSwapped c1ex c1new = false ∧
    alookup (c1ex.ratingBreakdown.getD []) "hmm" =
      some (.jobj ⟨some (.num 8), none, some "direct"⟩) ∧
    alookup (c1new.ratingBreakdown.getD []) "hmm" =
      some (.jobj ⟨some (.num 2), none, some "direct"⟩) ∧
    alookup ((mergeSeries envZero c1ex c1new).ratingBreakdown.getD []) "hmm" =
      some (.jobj ⟨some (.num 2), none, some "direct"⟩) ∧
    alookup ((mergeSeries envZero c1ex c1new).ratingBreakdown.getD []) "hmm" ≠
      alookup (c1ex.ratingBreakdown.getD []) "hmm" := by
  refine ⟨by decide, by decide, by decide, by decide, by decide⟩

/-- C1 amended: on a breakdown key collision the merged record keeps the
SECONDARY side's entry (after the secondary's own-prefix entry has been
re-synthesized from its standalone rating/view count); the primary's
colliding entry is discarded.  Stated for any key of the post-synthesis
secondary breakdown (JS objects have no duplicate keys, whence the
`Nodup` hypothesis). -/
theorem C1_amended_secondary_precedence (env : JsEnv) (ex nw : Series) (k : String)
    (hp : k ∈ keysOf ((mergePrimary0 ex nw).ratingBreakdown.getD []))
    (hk : k ∈ keysOf ((synthSecondary (mergeSecondary0 ex nw)).ratingBreakdown.getD []))
    (hnd : (keysOf ((synthSecondary (mergeSecondary0 ex nw)).ratingBreakdown.getD [])).Nodup) :
    alookup ((mergeSeries env ex nw).ratingBreakdown.getD []) k =
      alookup ((synthSecondary (mergeSecondary0 ex nw)).ratingBreakdown.getD []) k := by
  rw [mergeSeries, mergeTail_breakdown, Option.getD_some]
  exact alookup_assignList_of_mem _ _ k hnd hk

/-- Witness for C1 amended, at the counterexample records. -/
theorem C1_amended_secondary_precedence_witness :
    "hmm" ∈ keysOf ((mergePrimary0 c1ex c1new).ratingBreakdown.getD []) ∧
    alookup ((mergeSeries envZero c1ex c1new).ratingBreakdown.getD []) "hmm" =
      alookup ((synthSecondary (mergeSecondary0 c1ex c1new)).ratingBreakdown.getD []) "hmm" :=
  ⟨by decide, C1_amended_secondary_precedence envZero c1ex c1new "hmm"
    (by decide) (by decide) (by decide)⟩

/-! ## C3: the secondary is mutated -/

/-- C3 counterexample: the incoming record ends up secondary (no swap)
and is NOT left unchanged — the merge creates its `ratingBreakdown` and
writes a synthesized entry for its own prefix into it. -/
theorem C3_counterexample :
    mergeSwapped c3ex c3new = false ∧
    mergeNewAfter envZero c3ex c3new ≠ c3new ∧
    (mergeNewAfter envZero c3ex c3new).ratingBreakdown =
      some [("bbb", .jobj ⟨some (.num 5), none, some "direct"⟩)] := by
  refine ⟨by decide, by decide, by decide⟩

/-- C3 amended: the secondary record is unchanged in every field except
`ratingBreakdown`; and when the secondary has neither a standalone
`rating` nor a `viewCount` it is left completely unchanged.  (When it has
one, its `ratingBreakdown` is created/updated in place with a synthesized
entry for its own prefix.) -/
theorem C3_amended_secondary_frame (env : JsEnv) (ex nw : Series) :
    mergeSecondaryAfter env ex nw =
      { mergeSecondary0 ex nw with
        ratingBreakdown := (mergeSecondaryAfter env ex nw).ratingBreakdown } ∧
    ((mergeSecondary0 ex nw).rating = none → (mergeSecondary0 ex nw).viewCount = none →
      mergeSecondaryAfter env ex nw = mergeSecondary0 ex nw) := by
  constructor
  · rw [mergeSecondaryAfter_eq]
    exact synthSecondary_only_breakdown _
  · intro h1 h2
    rw [mergeSecondaryAfter_eq, synthSecondary, synthSecondaryViews, synthSecondaryRating,
      h1, h2]
    simp [h1, h2]

/-- Witness for C3 amended: a secondary with neither rating nor view
count really is returned unchanged. -/
theorem C3_amended_secondary_frame_witness :
    (mergeSecondary0 c3ex { id := "bbb-y", name := some "n" }).rating = none ∧
    mergeSecondaryAfter envZero c3ex { id := "bbb-y", name := some "n" } =
      mergeSecondary0 c3ex { id := "bbb-y", name := some "n" } :=
  ⟨by decide, (C3_amended_secondary_frame envZero c3ex
    { id := "bbb-y", name := some "n" }).2 (by decide) (by decide)⟩

/-! ## C4: providerSlugs collisions -/

/-- C4 counterexample: both sides supply a slug for prefix `bbb`
(primary: `"old"`; secondary: the id-derived `"y"`); the merged map holds
`"y"` — the secondary's id-derived slug overwrote the primary's value. -/
theorem C4_counterexample :
    mergeSwapped c4ex c4new = false ∧
    alookup (c4ex.providerSlugs.getD []) "bbb" = some "old" ∧
    alookup ((mergeSeries envZero c4ex c4new).providerSlugs.getD []) "bbb" = some "y" ∧
    alookup ((mergeSeries envZero c4ex c4new).providerSlugs.getD []) "bbb" ≠
      some "old" := by
  refine ⟨by decide, by decide, by decide, by decide⟩

/-- C4 amended: the merged `providerSlugs` always maps the secondary's
own prefix to the secondary's id-derived slug, overwriting any value
either side had for that prefix; the primary's values survive only for
other prefixes. -/
theorem C4_amended_secondary_slug_wins (env : JsEnv) (ex nw : Series) :
    alookup ((mergeSeries env ex nw).providerSlugs.getD [])
        (getPfxFromId (mergeSecondary0 ex nw).id) =
      some (idSlug (mergeSecondary0 ex nw).id
        (getPfxFromId (mergeSecondary0 ex nw).id)) := by
  rw [mergeSeries, mergeTail_slugs, Option.getD_some, synthSecondary_id]
  exact alookup_setKey_self _ _ _

/-! ## C9: empty-normalized names all collapse -/

theorem seedSeries_name (env : JsEnv) (s : Series) : (seedSeries env s).name = s.name := rfl

/-- `isDuplicate` is true whenever both names normalize to the empty
string (the exact-equality branch). -/
theorem isDuplicate_of_empty (x y : Series) (hx : normalizeName x.name = "")
    (hy : normalizeName y.name = "") : isDuplicate x y = true := by
  rw [isDuplicate, hx, hy]
  simp

/-- Inserting a record whose name normalizes to the empty string into an
accumulator of records with empty-normalizing names keeps the accumulator
at most one record long, all names still normalizing to the empty
string. -/
theorem insertSeries_empty_names (env : JsEnv) (acc : List Series) (s : Series)
    (hacc : acc.length ≤ 1 ∧ ∀ r ∈ acc, normalizeName r.name = "")
    (hs : normalizeName s.name = "") :
    (insertSeries env acc s).length ≤ 1 ∧
      ∀ r ∈ insertSeries env acc s, normalizeName r.name = "" := by
  match acc with
  | [] =>
    refine ⟨by simp [insertSeries], ?_⟩
    intro r hr
    simp [insertSeries] at hr
    rw [hr, seedSeries_name]
    exact hs
  | t :: rest =>
    have hrest : rest = [] := by
      have h1 : rest.length + 1 ≤ 1 := by simpa using hacc.1
      exact List.length_eq_zero.mp (by omega)
    subst hrest
    have ht : normalizeName t.name = "" := hacc.2 t (by simp)
    rw [insertSeries, if_pos (isDuplicate_of_empty t s ht hs)]
    refine ⟨by simp, ?_⟩
    intro r hr
    simp at hr
    rw [hr, mergeSeries_name, mergePrimary0]
    split_ifs <;> assumption

/-- Folding a whole catalog of empty-normalizing names preserves the
invariant. -/
theorem foldl_insert_empty_names (env : JsEnv) (cat : List Series) (acc : List Series)
    (hacc : acc.length ≤ 1 ∧ ∀ r ∈ acc, normalizeName r.name = "")
    (hcat : ∀ s ∈ cat, normalizeName s.name = "") :
    (cat.foldl (fun acc2 s => insertSeries env acc2 s) acc).length ≤ 1 ∧
      ∀ r ∈ cat.foldl (fun acc2 s => insertSeries env acc2 s) acc,
        normalizeName r.name = "" := by
  induction cat generalizing acc with
  | nil => exact hacc
  | cons s rest ih =>
    exact ih (insertSeries env acc s)
      (insertSeries_empty_names env acc s hacc (hcat s (by simp)))
      (fun s2 hs2 => hcat s2 (by simp [hs2]))

/-- C9: any two records whose names normalize to the empty string are
duplicates (their normalized names are equal, and the similarity of two
empty strings is 1), so the aggregator collapses all such records, across
all providers, into at most one merged entry. -/
theorem C9_empty_names_collapse :
    (∀ x y : Series, normalizeName x.name = "" → normalizeName y.name = "" →
      isDuplicate x y = true) ∧
    similarity [] [] = 1 ∧
    (∀ (env : JsEnv) (cats : List (String × List Series)),
      (∀ pc ∈ cats, ∀ s ∈ pc.2, normalizeName s.name = "") →
        (aggregateCatalogs env cats).length ≤ 1) := by
  refine ⟨isDuplicate_of_empty, by decide, ?_⟩
  intro env cats hcats
  rw [aggregateCatalogs]
  rw [List.Perm.length_eq (List.mergeSort_perm (aggregateAcc env cats) _)]
  rw [aggregateAcc]
  have haux : ∀ (cs : List (String × List Series)) (acc : List Series),
      (acc.length ≤ 1 ∧ ∀ r ∈ acc, normalizeName r.name = "") →
      (∀ pc ∈ cs, ∀ s ∈ pc.2, normalizeName s.name = "") →
      (cs.foldl (fun acc pc => pc.2.foldl (fun acc2 s => insertSeries env acc2 s) acc)
        acc).length ≤ 1 := by
    intro cs
    induction cs with
    | nil => intro acc hacc _; exact hacc.1
    | cons pc rest ih =>
      intro acc hacc hcs
      exact ih _ (foldl_insert_empty_names env pc.2 acc hacc
          (fun s hs => hcs pc (by simp) s hs))
        (fun pc2 hpc2 s hs => hcs pc2 (by simp [hpc2]) s hs)
  exact haux cats [] ⟨by simp, by simp⟩ hcats

/-- Witness for C9: two records whose names are made only of stripped
characters (or are missing) are duplicates, and a two-provider input of
such records aggregates to at most one entry. -/
theorem C9_empty_names_collapse_witness :
    isDuplicate { id := "aaa-1", name := some "!!!" } { id := "bbb-2", name := none } = true ∧
    (aggregateCatalogs envZero
      [("p", [{ id := "aaa-1", name := some "!!!" }]),
       ("q", [{ id := "bbb-2", name := none }])]).length ≤ 1 :=
  ⟨C9_empty_names_collapse.1 { id := "aaa-1", name := some "!!!" }
      { id := "bbb-2", name := none } (by decide) (by decide),
    C9_empty_names_collapse.2.2 envZero
      [("p", [{ id := "aaa-1", name := some "!!!" }]),
       ("q", [{ id := "bbb-2", name := none }])] (by decide)⟩

/-! ## C8: the aggregator output is sorted by the three-key comparator -/

/-- Transitivity of the Boolean sort relation, given transitivity of the
locale comparison. -/
theorem seriesLE_trans (env : JsEnv)
    (htr : ∀ s t u : String, env.localeCmp s t ≤ 0 → env.localeCmp t u ≤ 0 →
      env.localeCmp s u ≤ 0) :
    ∀ a b c : Series, seriesLE env a b = true → seriesLE env b c = true →
      seriesLE env a c = true := by
  intro a b c hab hbc
  rw [seriesLE, decide_eq_true_iff] at *
  rw [cmpSeries] at hab hbc ⊢
  split_ifs at hab hbc ⊢ <;> first | omega | exact htr _ _ _ hab hbc

/-- Totality of the Boolean sort relation, given weak totality of the
locale comparison. -/
theorem seriesLE_total (env : JsEnv)
    (hto : ∀ s t : String, env.localeCmp s t ≤ 0 ∨ env.localeCmp t s ≤ 0) :
    ∀ a b : Series, (seriesLE env a b || seriesLE env b a) = true := by
  intro a b
  rw [Bool.or_eq_true, seriesLE, seriesLE, decide_eq_true_iff, decide_eq_true_iff,
    cmpSeries, cmpSeries]
  split_ifs <;> first | omega | exact hto _ _

theorem notDup_c8B_A1 : isDuplicate c8Bp c8A1 = false := by
  rw [isDuplicate]
  rw [show normalizeName c8Bp.name = "aaa" from by decide,
    show normalizeName c8A1.name = "zzz" from by decide]
  rw [if_neg (by decide)]
  rw [decide_eq_false_iff_not]
  rw [show similarity "aaa".toList "zzz".toList =
    ((3 : ℚ) - levenshteinDistance "zzz".toList "aaa".toList) / 3 from by rfl]
  rw [show levenshteinDistance "zzz".toList "aaa".toList = 3 from by decide]
  norm_num

theorem notDup_c8B_A2 : isDuplicate c8Bp c8A2 = false := by
  rw [isDuplicate]
  rw [show normalizeName c8Bp.name = "aaa" from by decide,
    show normalizeName c8A2.name = "zzz" from by decide]
  rw [if_neg (by decide)]
  rw [decide_eq_false_iff_not]
  rw [show similarity "aaa".toList "zzz".toList =
    ((3 : ℚ) - levenshteinDistance "zzz".toList "aaa".toList) / 3 from by rfl]
  rw [show levenshteinDistance "zzz".toList "aaa".toList = 3 from by decide]
  norm_num

/-- The accumulator of the C8 instance before sorting: the `aaa` record
first (one provider), the merged `zzz` record second (two providers),
both with metadata score 1. -/
theorem c8_acc_eq : aggregateAcc envZero c8cats = [c8Bp, c8Ap] := by
  have h1 : insertSeries envZero [] c8B = [c8Bp] := by decide
  have h2 : insertSeries envZero [c8Bp] c8A1 = [c8Bp, c8A1p] := by
    rw [insertSeries, if_neg (by simp [notDup_c8B_A1])]
    rw [show insertSeries envZero [] c8A1 = [c8A1p] from by decide]
  have h3 : insertSeries envZero [c8Bp, c8A1p] c8A2 = [c8Bp, c8Ap] := by
    rw [insertSeries, if_neg (by simp [notDup_c8B_A2])]
    rw [show insertSeries envZero [c8A1p] c8A2 = [c8Ap] from by
      rw [insertSeries, if_pos (by decide)]
      rw [show mergeSeries envZero c8A1p c8A2 = c8Ap from by decide]]
  show ([("q", [c8B]), ("r", [c8A1]), ("s", [c8A2])].foldl _ []) = _
  simp only [List.foldl_cons, List.foldl_nil]
  rw [h1, h2, h3]

/-- A list permuted with a pair is that pair in one of its two orders. -/
theorem perm_pair {α : Type} (l : List α) (x y : α) (h : l.Perm [x, y]) :
    l = [x, y] ∨ l = [y, x] := by
  match l with
  | [] => exact absurd h.length_eq (by simp)
  | [a] => exact absurd h.length_eq (by simp)
  | a :: b :: c :: rest => exact absurd h.length_eq (by simp)
  | [a, b] =>
    have ha : a ∈ [x, y] := h.mem_iff.mp (by simp)
    rcases List.mem_pair.mp ha with ha | ha
    · subst ha
      left
      have hb : [b].Perm [y] := (List.perm_cons a).mp h
      rw [List.perm_singleton.mp hb]
    · subst ha
      right
      have hswap : ([x, a] : List α).Perm [a, x] := List.Perm.swap a x []
      have hb : [b].Perm [x] := (List.perm_cons a).mp (h.trans hswap)
      rw [List.perm_singleton.mp hb]

/-- C8: the aggregator's output is pairwise ordered by the three-key
comparator (metadata score descending, provider count descending, then
locale comparison of names); the modelled sort is stable (every
already-ordered subsequence of the accumulator survives as a subsequence
of the output); with equal metadata scores a 1-provider record never
sorts at-or-before a 2-provider record; and on the concrete three-catalog
instance the merged 2-provider record comes out first. -/
theorem C8_sorted_output (env : JsEnv)
    (htr : ∀ s t u : String, env.localeCmp s t ≤ 0 → env.localeCmp t u ≤ 0 →
      env.localeCmp s u ≤ 0)
    (hto : ∀ s t : String, env.localeCmp s t ≤ 0 ∨ env.localeCmp t s ≤ 0)
    (cats : List (String × List Series)) :
    List.Pairwise (fun a b => seriesLE env a b = true) (aggregateCatalogs env cats) ∧
    (∀ c : List Series, c.Pairwise (fun a b => seriesLE env a b = true) →
      c.Sublist (aggregateAcc env cats) → c.Sublist (aggregateCatalogs env cats)) ∧
    (∀ a b : Series, a.metadataScore.getD 0 = b.metadataScore.getD 0 →
      provCount a = 1 → provCount b = 2 → seriesLE env a b = false) ∧
    (aggregateCatalogs envZero c8cats).map (fun s => s.id) = ["ccc-1", "bbb-1"] := by
  refine ⟨?_, ?_, ?_, ?_⟩
  · exact List.sorted_mergeSort (seriesLE_trans env htr) (seriesLE_total env hto) _
  · intro c hc hsub
    exact List.sublist_mergeSort (seriesLE_trans env htr) (seriesLE_total env hto) hc hsub
  · intro a b hs h1 h2
    rw [seriesLE, decide_eq_false_iff_not, cmpSeries, h1, h2]
    rw [if_neg (by omega), if_pos (by norm_num)]
    norm_num
  · have htr0 : ∀ s t u : String, envZero.localeCmp s t ≤ 0 →
        envZero.localeCmp t u ≤ 0 → envZero.localeCmp s u ≤ 0 := by
      intro s t u h1 h2; exact h1
    have hto0 : ∀ s t : String, envZero.localeCmp s t ≤ 0 ∨ envZero.localeCmp t s ≤ 0 := by
      intro s t; left; rfl
    have hpair := List.sorted_mergeSort
      (seriesLE_trans envZero htr0) (seriesLE_total envZero hto0)
      (aggregateAcc envZero c8cats)
    have hperm : (aggregateCatalogs envZero c8cats).Perm [c8Bp, c8Ap] := by
      rw [aggregateCatalogs, ← c8_acc_eq]
      exact List.mergeSort_perm _ _
    rcases perm_pair _ _ _ hperm with h | h
    · exfalso
      have hpw : List.Pairwise (fun a b => seriesLE envZero a b = true)
          (aggregateCatalogs envZero c8cats) := by
        rw [aggregateCatalogs]; exact hpair
      rw [h] at hpw
      have hle : seriesLE envZero c8Bp c8Ap = true := by
        have := List.pairwise_cons.mp hpw
        exact this.1 c8Ap (by simp)
      have : seriesLE envZero c8Bp c8Ap = false := by decide
      rw [this] at hle
      exact Bool.false_ne_true hle
    · rw [h]; rfl

/-- Witness for C8 at a trivial locale comparison. -/
theorem C8_sorted_output_witness :
    (∀ s t u : String, envZero.localeCmp s t ≤ 0 → envZero.localeCmp t u ≤ 0 →
      envZero.localeCmp s u ≤ 0) ∧
    (aggregateCatalogs envZero c8cats).map (fun s => s.id) = ["ccc-1", "bbb-1"] :=
  ⟨fun s t u h1 h2 => h1,
    (C8_sorted_output envZero (fun s t u h1 h2 => h1) (fun s t => Or.inl (by rfl))
      c8cats).2.2.2⟩

/-! ## C5: re-merging an already-incorporated secondary -/

theorem storeScore_providers (p : Series) : (storeScore p).providers = p.providers := rfl

theorem mergeLastUpdated_providers (env : JsEnv) (p sec : Series) :
    (mergeLastUpdated env p sec).providers = p.providers := rfl

theorem mergeRating_providers (env : JsEnv) (p : Series) :
    (mergeRating env p).providers = p.providers := rfl

theorem mergeBreakdowns_providers (p sec : Series) :
    (mergeBreakdowns p sec).providers = p.providers := rfl

theorem mergePoster_providers (p sec : Series) :
    (mergePoster p sec).providers = p.providers := by
  rw [mergePoster]; split_ifs <;> rfl

theorem mergeDescription_providers (p sec : Series) :
    (mergeDescription p sec).providers = p.providers := by
  rw [mergeDescription]; split_ifs <;> rfl

theorem mergeGenres_providers (p sec : Series) :
    (mergeGenres p sec).providers = p.providers := by
  rw [mergeGenres]; cases sec.genres <;> rfl

theorem mergeStudio_providers (p sec : Series) :
    (mergeStudio p sec).providers = p.providers := by
  rw [mergeStudio]; split_ifs <;> rfl

/-- The merged providers list: the primary's, with the secondary's prefix
appended when missing. -/
theorem mergeTail_providers (env : JsEnv) (p sec : Series) :
    (mergeTail env p sec).providers =
      some (if getPfxFromId sec.id ∈ p.providers.getD [] then p.providers.getD []
        else p.providers.getD [] ++ [getPfxFromId sec.id]) := by
  rw [mergeTail, storeScore_providers, mergeLastUpdated_providers, mergeStudio_providers,
    mergeGenres_providers, mergeDescription_providers, mergePoster_providers,
    mergeRating_providers]
  rfl

theorem synthSecondary_genres (s : Series) : (synthSecondary s).genres = s.genres := by
  rw [synthSecondary, synthSecondaryViews, synthSecondaryRating]
  split_ifs <;> rfl

theorem synthSecondary_studio (s : Series) : (synthSecondary s).studio = s.studio := by
  rw [synthSecondary, synthSecondaryViews, synthSecondaryRating]
  split_ifs <;> rfl

/-- `initPrimary` changes nothing on a record whose provider fields are
all present. -/
theorem initPrimary_of_some (p : Series) (hp : p.providers.isSome)
    (hs : p.providerSlugs.isSome) (hb : p.ratingBreakdown.isSome) :
    initPrimary p = p := by
  obtain ⟨lp, hlp⟩ := Option.isSome_iff_exists.mp hp
  obtain ⟨ls, hls⟩ := Option.isSome_iff_exists.mp hs
  obtain ⟨lb, hlb⟩ := Option.isSome_iff_exists.mp hb
  rw [initPrimary, hlp, hls, hlb]
  simp only [Option.getD_some]
  rw [← hlp, ← hls, ← hlb]

/-- Copying a record's own provider data onto itself is a no-op (the
self-aliasing situation of a merge without a swap), provided the maps
have no duplicate keys. -/
theorem copyExistingData_self (p : Series) (hp : p.providers.isSome)
    (hs : p.providerSlugs.isSome) (hb : p.ratingBreakdown.isSome)
    (h1 : (keysOf (p.providerSlugs.getD [])).Nodup)
    (h2 : (keysOf (p.ratingBreakdown.getD [])).Nodup) :
    copyExistingData p p = p := by
  obtain ⟨lp, hlp⟩ := Option.isSome_iff_exists.mp hp
  obtain ⟨ls, hls⟩ := Option.isSome_iff_exists.mp hs
  obtain ⟨lb, hlb⟩ := Option.isSome_iff_exists.mp hb
  rw [hls, Option.getD_some] at h1
  rw [hlb, Option.getD_some] at h2
  rw [copyExistingData, hlp, hls, hlb]
  simp only [Option.getD_some]
  rw [pushMissing_of_contained lp lp (fun q hq => hq),
    assignList_of_contained ls ls (alookup_self_of_nodup ls h1),
    assignList_of_contained lb lb (alookup_self_of_nodup lb h2)]
  rw [← hlp, ← hls, ← hlb]

/-- A truthy own-prefix breakdown entry blocks both own-entry synthesis
steps for the primary. -/
theorem synthPrimaryOwn_of_truthy (p : Series)
    (h : bdTruthy (alookup (p.ratingBreakdown.getD []) (getPfxFromId p.id)) = true) :
    synthPrimaryOwn p = p := by
  rw [synthPrimaryOwn, synthPrimaryRating, if_neg (by simp [h]), synthPrimaryViews,
    if_neg (by simp [h])]

/-- The merged record's rating field always equals the weighted average
of the merged record's own breakdown. -/
theorem mergeSeries_rating_self (env : JsEnv) (ex nw : Series) :
    (mergeSeries env ex nw).rating = some (.num (calculateAverageRating env
      ((mergeSeries env ex nw).ratingBreakdown.getD []))) := by
  rw [mergeSeries, mergeTail_rating, mergeTail_breakdown, Option.getD_some]

theorem mem_filterStudio (l : List String) (st : Option String) (g : String) :
    g ∈ filterStudio l st ↔ g ∈ l ∧ studioPass st g = true := by
  rw [filterStudio, studioPass]
  split_ifs with h
  · rw [List.mem_filter]
  · simp

/-- C5 counterexample: re-merging the already-incorporated secondary is
NOT idempotent.  The first merge resolves the studio filter against
`"FOO"` (keeping the genre `"bar"`) but replaces the studio by the
properly-cased `"Bar"`; the second merge then filters the same genre
union against `"Bar"` and deletes `"bar"`, so
`merge(merge(a,b), b)` has a different genre set than `merge(a,b)`. -/
theorem C5_counterexample :
    (mergeSeries envZero c5a c5b).genres = some ["bar"] ∧
    mergeNewAfter envZero c5a c5b = c5b ∧
    (mergeSeries envZero (mergeSeries envZero c5a c5b)
      (mergeNewAfter envZero c5a c5b)).genres = some [] ∧
    ((mergeSeries envZero (mergeSeries envZero c5a c5b)
        (mergeNewAfter envZero c5a c5b)).genres.getD []).toFinset ≠
      ((mergeSeries envZero c5a c5b).genres.getD []).toFinset := by
  refine ⟨by decide, by decide, by decide, by decide⟩

/-- C5 amended: re-merging an already-incorporated secondary `b` into
`r1 = merge(a, b)` preserves the rating and the genre set, provided
(i) the re-merge does not swap primary, (ii) `r1`'s breakdown has a
truthy entry for `r1`'s own id prefix (so no own-entry is injected),
(iii) `r1`'s slug and breakdown maps have no duplicate keys (JS objects
never do), (iv) `r1`'s breakdown already contains, unchanged, every entry
of the re-synthesized secondary, and (v) the studio-based genre filter of
the re-merge excludes nothing: every merged genre passes it and every
passing secondary genre is already in the merged record.  Without these
guards the claim fails (see the counterexample: a studio case-change
alters the filter; a primary swap overwrites the secondary's breakdown
entry with the merged average). -/
theorem C5_amended_guarded_idempotence (env : JsEnv) (a b : Series)
    (hswap : mergeSwapped (mergeSeries env a b) (mergeNewAfter env a b) = false)
    (hown : bdTruthy (alookup ((mergeSeries env a b).ratingBreakdown.getD [])
      (getPfxFromId (mergeSeries env a b).id)) = true)
    (hndS : (keysOf ((mergeSeries env a b).providerSlugs.getD [])).Nodup)
    (hndB : (keysOf ((mergeSeries env a b).ratingBreakdown.getD [])).Nodup)
    (hincl : ∀ kv ∈ (synthSecondary (mergeNewAfter env a b)).ratingBreakdown.getD [],
      alookup ((mergeSeries env a b).ratingBreakdown.getD []) kv.1 = some kv.2)
    (hgen1 : ∀ g ∈ (mergeSeries env a b).genres.getD [],
      studioPass (jsOrStr (mergeSeries env a b).studio (mergeNewAfter env a b).studio)
        g = true)
    (hgen2 : ∀ g ∈ (mergeNewAfter env a b).genres.getD [],
      studioPass (jsOrStr (mergeSeries env a b).studio (mergeNewAfter env a b).studio)
          g = true →
        g ∈ (mergeSeries env a b).genres.getD []) :
    (mergeSeries env (mergeSeries env a b) (mergeNewAfter env a b)).rating =
      (mergeSeries env a b).rating ∧
    ((mergeSeries env (mergeSeries env a b) (mergeNewAfter env a b)).genres.getD
        []).toFinset =
      ((mergeSeries env a b).genres.getD []).toFinset := by
  have hbP : (mergeSeries env a b).providers.isSome := by
    rw [mergeSeries, mergeTail_providers]; rfl
  have hbS : (mergeSeries env a b).providerSlugs.isSome := by
    rw [mergeSeries, mergeTail_slugs]; rfl
  have hbB : (mergeSeries env a b).ratingBreakdown.isSome := by
    rw [mergeSeries, mergeTail_breakdown]; rfl
  have hprim0 : mergePrimary0 (mergeSeries env a b) (mergeNewAfter env a b) =
      mergeSeries env a b := by
    rw [mergePrimary0, hswap]; rfl
  have hsec0 : mergeSecondary0 (mergeSeries env a b) (mergeNewAfter env a b) =
      mergeNewAfter env a b := by
    rw [mergeSecondary0, hswap]; rfl
  have hpre : mergePrimaryPre (mergeSeries env a b) (mergeNewAfter env a b) =
      mergeSeries env a b := by
    rw [mergePrimaryPre, hswap, hprim0]
    simp only [Bool.false_eq_true, if_false]
    rw [initPrimary_of_some _ hbP hbS hbB,
      copyExistingData_self _ hbP hbS hbB hndS hndB,
      synthPrimaryOwn_of_truthy _ hown]
  have hbd2 : assignList ((mergeSeries env a b).ratingBreakdown.getD [])
      ((synthSecondary (mergeNewAfter env a b)).ratingBreakdown.getD []) =
      (mergeSeries env a b).ratingBreakdown.getD [] :=
    assignList_of_contained _ _ hincl
  constructor
  · rw [show mergeSeries env (mergeSeries env a b) (mergeNewAfter env a b) =
        mergeTail env (mergeSeries env a b)
          (synthSecondary (mergeNewAfter env a b)) from by
      rw [mergeSeries, hpre, hsec0]]
    rw [mergeTail_rating, hbd2, mergeSeries_rating_self]
  · rw [show mergeSeries env (mergeSeries env a b) (mergeNewAfter env a b) =
        mergeTail env (mergeSeries env a b)
          (synthSecondary (mergeNewAfter env a b)) from by
      rw [mergeSeries, hpre, hsec0]]
    rw [mergeTail_genres, synthSecondary_genres, synthSecondary_studio]
    cases hbg : (mergeNewAfter env a b).genres with
    | none => rfl
    | some l =>
      simp only [Option.getD_some]
      ext g
      simp only [List.mem_toFinset, mem_jsDedup, mem_filterStudio, List.mem_append]
      constructor
      · rintro ⟨hg | hg, hpass⟩
        · exact hg
        · exact hgen2 g (by rw [hbg, Option.getD_some]; exact hg) hpass
      · intro hg
        exact ⟨Or.inl hg, hgen1 g hg⟩

/-- Witness for C5 amended: a secondary contributing neither rating,
views, genres nor studio leaves every guard satisfied, and the re-merge
preserves rating and genre set. -/
theorem C5_amended_guarded_idempotence_witness :
    mergeSwapped (mergeSeries envZero c5wa c5wb) (mergeNewAfter envZero c5wa c5wb)
        = false ∧
    (mergeSeries envZero (mergeSeries envZero c5wa c5wb)
        (mergeNewAfter envZero c5wa c5wb)).rating =
      (mergeSeries envZero c5wa c5wb).rating :=
  ⟨by decide, (C5_amended_guarded_idempotence envZero c5wa c5wb (by decide) (by decide)
    (by decide) (by decide) (by decide) (by decide) (by decide)).1⟩
